import Mathlib

/-!
Verification of the `varinterval` middleware
(`middleware/varinterval/varinterval.go`).

The middleware randomly increases the announce interval of a tracker
response.  The Go source is embedded shallowly: the configuration is a
record, the float32 probability is modelled as a rational (every value it
takes in the source, `float32(v) / (1 << 24)` with `v < 2^24` and the
configured probability, is an exact binary rational, and the comparisons
in the source are exact), `time.Duration` values are integers counting
nanoseconds, and the in-place mutation of the response becomes explicit
state passing.  The external entropy-derivation and bounded-draw
capabilities (`middleware/pkg/random`, outside the sources given) are
modelled from the spec as an abstract oracle, consumed only through its
contracts.
-/

namespace Varinterval

/-- A seed pair: the two 64-bit values of the per-request random stream,
modelled as natural numbers. -/
abbrev Seeds := Nat × Nat

/-- Modelled from the spec: the announce request (`bittorrent.AnnounceRequest`,
outside the sources given).  `InfoHash` and `PeerID` are the identifying
fields the entropy derivation reads; the remaining fields are per-exchange
data the middleware never consults. -/
structure AnnounceRequest where
  InfoHash : Nat
  PeerID : Nat
  Uploaded : Nat
  Downloaded : Nat
  Left : Nat
  deriving DecidableEq

/-- Modelled from the spec: the announce response
(`bittorrent.AnnounceResponse`, outside the sources given).  `Interval` and
`MinInterval` are `time.Duration` values counted in nanoseconds; the
remaining payload (swarm statistics, compactness flag) is never touched by
this middleware. -/
structure AnnounceResponse where
  Interval : Int
  MinInterval : Int
  Compact : Bool
  Complete : Int
  Incomplete : Int
  deriving DecidableEq

/-- Modelled from the spec: a scrape request (`bittorrent.ScrapeRequest`,
outside the sources given). -/
structure ScrapeRequest where
  InfoHashes : List Nat
  deriving DecidableEq

/-- Modelled from the spec: a scrape response (`bittorrent.ScrapeResponse`,
outside the sources given). -/
structure ScrapeResponse where
  Files : List (Nat × Int × Int)
  deriving DecidableEq

/-- Modelled from the spec: an administrative request
(`bittorrent.ApiRequest`, outside the sources given). -/
structure ApiRequest where
  Action : Nat
  deriving DecidableEq

/-- Modelled from the spec: an administrative response
(`bittorrent.ApiResponse`, outside the sources given). -/
structure ApiResponse where
  Body : Nat
  deriving DecidableEq

/-- Go's `time.Second` as a `time.Duration`: 10^9 nanoseconds. -/
def second : Int := 1000000000

/-- Modelled from the spec: the external entropy-derivation and bounded-draw
capabilities of `middleware/pkg/random` (outside the sources given).
`deriveEntropyFromRequest` derives a seed pair from a request;
`intn s n` draws a bounded integer and returns it together with the
advanced seed pair.  Their contracts (`IntnBounded`, `DeriveIdentifying`)
are stated separately, exactly as the spec gives them. -/
structure RandomOracle where
  deriveEntropyFromRequest : AnnounceRequest → Seeds
  intn : Seeds → Int → Int × Seeds

/-- The bounded-draw contract from the spec: for a positive exclusive bound
the drawn value lies in `[0, bound)`. -/
def IntnBounded (R : RandomOracle) : Prop :=
  ∀ s : Seeds, ∀ n : Int, 0 < n → 0 ≤ (R.intn s n).1 ∧ (R.intn s n).1 < n

/-- The entropy-derivation contract from the spec: the seed pair is a pure
function of the request's identifying fields (`InfoHash`, `PeerID`). -/
def DeriveIdentifying (R : RandomOracle) : Prop :=
  ∀ r₁ r₂ : AnnounceRequest, r₁.InfoHash = r₂.InfoHash → r₁.PeerID = r₂.PeerID →
    R.deriveEntropyFromRequest r₁ = R.deriveEntropyFromRequest r₂

/-- The `Config` record from the source: the three configuration fields.  The Go
`float32` probability is modelled as a rational, the Go `int` delta bound
as an integer. -/
structure Config where
  ModifyResponseProbability : ℚ
  MaxIncreaseDelta : Int
  ModifyMinInterval : Bool
  deriving DecidableEq

/-- The two construction-time errors of the source. -/
inductive VError where
  | ErrInvalidModifyResponseProbability
  | ErrInvalidMaxIncreaseDelta
  deriving DecidableEq

/-- The `checkConfig` function from the source: probability must lie in `(0, 1]`, checked
first; then the delta bound must be strictly positive. -/
def checkConfig (cfg : Config) : Option VError :=
  if cfg.ModifyResponseProbability ≤ 0 ∨ cfg.ModifyResponseProbability > 1 then
    some .ErrInvalidModifyResponseProbability
  else if cfg.MaxIncreaseDelta ≤ 0 then
    some .ErrInvalidMaxIncreaseDelta
  else
    none

/-- The `hook` type from the source: it owns one configuration.  (The
source's embedded, never-used mutex has no observable behaviour and is
dropped.) -/
structure hook where
  cfg : Config

/-- The `New` constructor from the source: validate, then wrap the configuration. -/
def New (cfg : Config) : Except VError hook :=
  match checkConfig cfg with
  | some err => .error err
  | none => .ok { cfg := cfg }

/-- The `hook.HandleAnnounce` handler from the source, with the in-place response
mutation made explicit: it returns the context, the (possibly updated)
response, and the error value (always `none`). -/
def hook.HandleAnnounce (h : hook) (R : RandomOracle) {Ctx : Type} (ctx : Ctx)
    (req : AnnounceRequest) (resp : AnnounceResponse) :
    Ctx × AnnounceResponse × Option VError :=
  let s := R.deriveEntropyFromRequest req
  let r₁ := R.intn s (2 ^ 24)
  let p : ℚ := (r₁.1 : ℚ) / (2 ^ 24)
  if h.cfg.ModifyResponseProbability = 1 ∨ p < h.cfg.ModifyResponseProbability then
    let r₂ := R.intn r₁.2 h.cfg.MaxIncreaseDelta
    let addSeconds := (r₂.1 + 1) * second
    let resp₁ := { resp with Interval := resp.Interval + addSeconds }
    let resp₂ :=
      if h.cfg.ModifyMinInterval then
        { resp₁ with MinInterval := resp₁.MinInterval + addSeconds }
      else
        resp₁
    (ctx, resp₂, none)
  else
    (ctx, resp, none)

/-- The `hook.HandleScrape` handler from the source: scrapes are not altered. -/
def hook.HandleScrape (_h : hook) {Ctx : Type} (ctx : Ctx)
    (_req : ScrapeRequest) (resp : ScrapeResponse) :
    Ctx × ScrapeResponse × Option VError :=
  (ctx, resp, none)

/-- The `hook.HandleApi` handler from the source: administrative queries are not
altered. -/
def hook.HandleApi (_h : hook) {Ctx : Type} (ctx : Ctx)
    (_req : ApiRequest) (resp : ApiResponse) :
    Ctx × ApiResponse × Option VError :=
  (ctx, resp, none)

/-- The first bounded draw of `HandleAnnounce` (the probability draw): its
value and the advanced seed pair. -/
def probDraw (R : RandomOracle) (req : AnnounceRequest) : Int × Seeds :=
  R.intn (R.deriveEntropyFromRequest req) (2 ^ 24)

/-- The probability `p` computed by `HandleAnnounce`: the first draw divided
by `2^24`. -/
def probValue (R : RandomOracle) (req : AnnounceRequest) : ℚ :=
  ((probDraw R req).1 : ℚ) / (2 ^ 24)

/-- The second bounded draw of `HandleAnnounce` (the delta draw): it
consumes the seed pair advanced by the first draw. -/
def deltaDraw (R : RandomOracle) (req : AnnounceRequest) (maxDelta : Int) : Int :=
  (R.intn (probDraw R req).2 maxDelta).1

/-- The modification condition of `HandleAnnounce`: unconditional at
probability exactly 1, otherwise a strict comparison of `p` against the
configured probability. -/
def Modifies (R : RandomOracle) (h : hook) (req : AnnounceRequest) : Prop :=
  h.cfg.ModifyResponseProbability = 1 ∨ probValue R req < h.cfg.ModifyResponseProbability

instance (R : RandomOracle) (h : hook) (req : AnnounceRequest) :
    Decidable (Modifies R h req) := by
  unfold Modifies
  infer_instance

/-- Normal form of `HandleAnnounce`: branch on the modification condition;
when modifying, add `(deltaDraw + 1)` seconds to `Interval` and, when
configured, the identical amount to `MinInterval`. -/
theorem hook.handleAnnounce_eq (h : hook) (R : RandomOracle) {Ctx : Type} (ctx : Ctx)
    (req : AnnounceRequest) (resp : AnnounceResponse) :
    h.HandleAnnounce R ctx req resp =
      if Modifies R h req then
        (ctx,
          { resp with
            Interval := resp.Interval +
              (deltaDraw R req h.cfg.MaxIncreaseDelta + 1) * second
            MinInterval :=
              if h.cfg.ModifyMinInterval then
                resp.MinInterval +
                  (deltaDraw R req h.cfg.MaxIncreaseDelta + 1) * second
              else
                resp.MinInterval },
          none)
      else
        (ctx, resp, none) := by
  unfold hook.HandleAnnounce Modifies probValue deltaDraw probDraw
  split
  · cases hmi : h.cfg.ModifyMinInterval <;> simp [hmi]
  · rfl

/-- Helper: `checkConfig` succeeds exactly on valid configurations. -/
theorem checkConfig_none_iff (cfg : Config) :
    checkConfig cfg = none ↔
      0 < cfg.ModifyResponseProbability ∧ cfg.ModifyResponseProbability ≤ 1 ∧
        0 < cfg.MaxIncreaseDelta := by
  unfold checkConfig
  split
  · rename_i hp
    simp only [reduceCtorEq, false_iff]
    rintro ⟨h₁, h₂, -⟩
    rcases hp with hp | hp
    · exact absurd h₁ (not_lt.mpr hp)
    · exact absurd hp (not_lt.mpr h₂)
  · rename_i hp
    push_neg at hp
    split
    · rename_i hd
      simp only [reduceCtorEq, false_iff]
      rintro ⟨-, -, h₃⟩
      exact absurd h₃ (not_lt.mpr hd)
    · rename_i hd
      push_neg at hd
      simp [hp.1, hp.2, hd]

/-- A concrete sample instance of the draw capability, used to evaluate the
abstract oracle on concrete inputs: the draw is the first seed reduced
modulo the bound, and the pair is advanced by a simple recurrence. -/
def sampleOracle : RandomOracle where
  deriveEntropyFromRequest := fun req => (req.InfoHash + req.PeerID, 2 * req.InfoHash + 1)
  intn := fun s n => ((s.1 : Int) % n, (s.2, s.1 + s.2 + 1))

/-- The sample oracle satisfies the bounded-draw contract. -/
theorem sampleOracle_bounded : IntnBounded sampleOracle := by
  intro s n hn
  exact ⟨Int.emod_nonneg _ (by omega), Int.emod_lt_of_pos _ hn⟩

/-- The sample oracle satisfies the entropy-derivation contract. -/
theorem sampleOracle_identifying : DeriveIdentifying sampleOracle := by
  intro r₁ r₂ h₁ h₂
  simp [sampleOracle, h₁, h₂]

/-- A valid sample configuration with probability 1/2. -/
def cfgHalf : Config :=
  { ModifyResponseProbability := 1/2, MaxIncreaseDelta := 5, ModifyMinInterval := true }

/-- A valid sample configuration with probability 1 (unconditional). -/
def cfgOne : Config :=
  { ModifyResponseProbability := 1, MaxIncreaseDelta := 5, ModifyMinInterval := false }

/-- An invalid sample configuration: both numeric fields out of range. -/
def cfgBothBad : Config :=
  { ModifyResponseProbability := 0, MaxIncreaseDelta := 0, ModifyMinInterval := false }

/-- A sample announce request. -/
def reqA : AnnounceRequest :=
  { InfoHash := 3, PeerID := 4, Uploaded := 0, Downloaded := 0, Left := 10 }

/-- A sample announce request with the identifying fields of `reqA` but
different per-exchange data. -/
def reqB : AnnounceRequest :=
  { InfoHash := 3, PeerID := 4, Uploaded := 7, Downloaded := 8, Left := 2 }

/-- A sample announce response: interval 1800 s, minimum interval 900 s. -/
def respA : AnnounceResponse :=
  { Interval := 1800 * second, MinInterval := 900 * second, Compact := false,
    Complete := 0, Incomplete := 0 }

/-- Claim C4: `checkConfig` returns the probability error exactly when the
probability lies outside (0, 1], returns the max-delta error when the
probability is in (0, 1] but the delta bound is not positive, and succeeds
otherwise; the check is a pure function. -/
theorem C4_checkConfig_cases (cfg : Config) :
    (checkConfig cfg = some VError.ErrInvalidModifyResponseProbability ↔
        (cfg.ModifyResponseProbability ≤ 0 ∨ cfg.ModifyResponseProbability > 1))
      ∧ (checkConfig cfg = some VError.ErrInvalidMaxIncreaseDelta ↔
        (0 < cfg.ModifyResponseProbability ∧ cfg.ModifyResponseProbability ≤ 1 ∧
          cfg.MaxIncreaseDelta ≤ 0))
      ∧ (checkConfig cfg = none ↔
        (0 < cfg.ModifyResponseProbability ∧ cfg.ModifyResponseProbability ≤ 1 ∧
          0 < cfg.MaxIncreaseDelta)) := by
  refine ⟨?_, ?_, checkConfig_none_iff cfg⟩
  · unfold checkConfig
    split_ifs with hp hd
    · simpa using hp
    · simpa using hp
    · simpa using hp
  · unfold checkConfig
    split_ifs with hp hd
    · simp only [Option.some.injEq, reduceCtorEq, false_iff]
      rintro ⟨h₁, h₂, -⟩
      rcases hp with hp | hp
      · exact absurd h₁ (not_lt.mpr hp)
      · exact absurd hp (not_lt.mpr h₂)
    · push_neg at hp
      simp only [true_iff]
      exact ⟨hp.1, hp.2, hd⟩
    · push_neg at hp hd
      simp only [reduceCtorEq, false_iff]
      rintro ⟨-, -, h₃⟩
      exact absurd hd (not_lt.mpr h₃)

/-- Claim C4 witness: probability 1/2 with max delta 5 validates, and the
property instantiates at that configuration. -/
theorem C4_witness :
    (checkConfig cfgHalf = some VError.ErrInvalidModifyResponseProbability ↔
        (cfgHalf.ModifyResponseProbability ≤ 0 ∨ cfgHalf.ModifyResponseProbability > 1))
      ∧ (checkConfig cfgHalf = some VError.ErrInvalidMaxIncreaseDelta ↔
        (0 < cfgHalf.ModifyResponseProbability ∧ cfgHalf.ModifyResponseProbability ≤ 1 ∧
          cfgHalf.MaxIncreaseDelta ≤ 0))
      ∧ (checkConfig cfgHalf = none ↔
        (0 < cfgHalf.ModifyResponseProbability ∧ cfgHalf.ModifyResponseProbability ≤ 1 ∧
          0 < cfgHalf.MaxIncreaseDelta)) :=
  C4_checkConfig_cases cfgHalf

/-- Claim C10: validation checks the probability field first: whenever the
probability is invalid, `checkConfig` and `New` report the probability
error, never the max-delta error, whatever `MaxIncreaseDelta` is. -/
theorem C10_probability_checked_first (cfg : Config)
    (hp : cfg.ModifyResponseProbability ≤ 0 ∨ cfg.ModifyResponseProbability > 1) :
    checkConfig cfg = some VError.ErrInvalidModifyResponseProbability
      ∧ New cfg = Except.error VError.ErrInvalidModifyResponseProbability
      ∧ checkConfig cfg ≠ some VError.ErrInvalidMaxIncreaseDelta := by
  have h₁ : checkConfig cfg = some VError.ErrInvalidModifyResponseProbability := by
    unfold checkConfig
    rw [if_pos hp]
  refine ⟨h₁, ?_, ?_⟩
  · unfold New
    rw [h₁]
  · rw [h₁]
    simp

/-- Claim C10 witness: with probability 0 and max delta 0 (both fields
invalid) the probability error is reported. -/
theorem C10_witness :
    (cfgBothBad.ModifyResponseProbability ≤ 0 ∨ cfgBothBad.ModifyResponseProbability > 1)
      ∧ (checkConfig cfgBothBad = some VError.ErrInvalidModifyResponseProbability
          ∧ New cfgBothBad = Except.error VError.ErrInvalidModifyResponseProbability
          ∧ checkConfig cfgBothBad ≠ some VError.ErrInvalidMaxIncreaseDelta) :=
  ⟨Or.inl (by norm_num [cfgBothBad]),
    C10_probability_checked_first cfgBothBad (Or.inl (by norm_num [cfgBothBad]))⟩

/-- Claim C6: `New` propagates the exact validation error and no hook on
failure, and on success returns a hook whose stored configuration equals
the given one (the embedding is a pure function: no randomness, no I/O). -/
theorem C6_New_propagates (cfg : Config) :
    (∀ e : VError, checkConfig cfg = some e → New cfg = Except.error e)
      ∧ (checkConfig cfg = none → New cfg = Except.ok { cfg := cfg })
      ∧ (∀ hk : hook, New cfg = Except.ok hk → hk.cfg = cfg ∧ checkConfig cfg = none) := by
  refine ⟨?_, ?_, ?_⟩
  · intro e he
    unfold New
    rw [he]
  · intro he
    unfold New
    rw [he]
  · intro hk hhk
    unfold New at hhk
    rcases hcc : checkConfig cfg with - | e
    · rw [hcc] at hhk
      simp only [Except.ok.injEq] at hhk
      exact ⟨by rw [← hhk], rfl⟩
    · rw [hcc] at hhk
      simp at hhk

/-- Claim C6 witness: the valid configuration with probability 1/2 builds a
hook storing exactly that configuration. -/
theorem C6_witness :
    checkConfig cfgHalf = none ∧ New cfgHalf = Except.ok { cfg := cfgHalf } :=
  ⟨by norm_num [checkConfig, cfgHalf],
    (C6_New_propagates cfgHalf).2.1 (by norm_num [checkConfig, cfgHalf])⟩

/-- Claim C5: all three entry points return a nil error for every
configuration, request, response and context. -/
theorem C5_handlers_never_error (h : hook) (R : RandomOracle) {Ctx : Type} (ctx : Ctx)
    (req : AnnounceRequest) (resp : AnnounceResponse)
    (sreq : ScrapeRequest) (sresp : ScrapeResponse)
    (areq : ApiRequest) (aresp : ApiResponse) :
    (h.HandleAnnounce R ctx req resp).2.2 = none
      ∧ (h.HandleScrape ctx sreq sresp).2.2 = none
      ∧ (h.HandleApi ctx areq aresp).2.2 = none := by
  refine ⟨?_, rfl, rfl⟩
  rw [hook.handleAnnounce_eq]
  split <;> rfl

/-- Claim C9: `HandleScrape` and `HandleApi` return the given context and
the response entirely unmodified, with a nil error, for every
configuration and input. -/
theorem C9_scrape_api_inert (h : hook) {Ctx : Type} (ctx : Ctx)
    (sreq : ScrapeRequest) (sresp : ScrapeResponse)
    (areq : ApiRequest) (aresp : ApiResponse) :
    h.HandleScrape ctx sreq sresp = (ctx, sresp, none)
      ∧ h.HandleApi ctx areq aresp = (ctx, aresp, none) :=
  ⟨rfl, rfl⟩

/-- Claim C1: under a valid configuration, `HandleAnnounce` modifies the
response if and only if the probability is exactly 1 or the drawn
probability `p` is strictly below it; `p` lies in `[0, 1)`; when the
condition is false the response is returned untouched; and probability 1
modifies every exchange. -/
theorem C1_modifies_iff (R : RandomOracle) (hR : IntnBounded R) (h : hook)
    (hcfg : checkConfig h.cfg = none) {Ctx : Type} (ctx : Ctx)
    (req : AnnounceRequest) (resp : AnnounceResponse) :
    ((h.HandleAnnounce R ctx req resp).2.1 ≠ resp ↔
        (h.cfg.ModifyResponseProbability = 1 ∨
          probValue R req < h.cfg.ModifyResponseProbability))
      ∧ 0 ≤ probValue R req ∧ probValue R req < 1
      ∧ (h.cfg.ModifyResponseProbability = 1 →
          (h.HandleAnnounce R ctx req resp).2.1 ≠ resp) := by
  obtain ⟨hp0, hp1, hd0⟩ := (checkConfig_none_iff h.cfg).1 hcfg
  have hv : 0 ≤ (probDraw R req).1 ∧ (probDraw R req).1 < 2 ^ 24 :=
    hR _ _ (by norm_num)
  have hpv0 : 0 ≤ probValue R req := by
    unfold probValue
    exact div_nonneg (by exact_mod_cast hv.1) (by norm_num)
  have hpv1 : probValue R req < 1 := by
    unfold probValue
    rw [div_lt_one (by norm_num)]
    exact_mod_cast hv.2
  have hdelta : 0 ≤ deltaDraw R req h.cfg.MaxIncreaseDelta :=
    (hR (probDraw R req).2 h.cfg.MaxIncreaseDelta hd0).1
  have hsec : (0 : Int) < second := by norm_num [second]
  have hiff : (h.HandleAnnounce R ctx req resp).2.1 ≠ resp ↔
      (h.cfg.ModifyResponseProbability = 1 ∨
        probValue R req < h.cfg.ModifyResponseProbability) := by
    rw [hook.handleAnnounce_eq]
    by_cases hm : Modifies R h req
    · rw [if_pos hm]
      constructor
      · intro _
        exact hm
      · intro _ hcontra
        have hI : resp.Interval + (deltaDraw R req h.cfg.MaxIncreaseDelta + 1) * second =
            resp.Interval := congrArg AnnounceResponse.Interval hcontra
        have hpos : 0 < (deltaDraw R req h.cfg.MaxIncreaseDelta + 1) * second :=
          mul_pos (by omega) hsec
        omega
    · rw [if_neg hm]
      constructor
      · intro hne
        exact absurd rfl hne
      · intro hmm
        exact absurd hmm hm
  exact ⟨hiff, hpv0, hpv1, fun h1 => hiff.mpr (Or.inl h1)⟩

/-- Claim C1 witness: the sample oracle with probability 1/2 and the sample
request draws p = 7 / 2^24 < 1/2, so the response is modified. -/
theorem C1_witness :
    IntnBounded sampleOracle
      ∧ checkConfig (hook.mk cfgHalf).cfg = none
      ∧ ((((hook.mk cfgHalf).HandleAnnounce sampleOracle (0 : Nat) reqA respA).2.1 ≠ respA ↔
            ((hook.mk cfgHalf).cfg.ModifyResponseProbability = 1 ∨
              probValue sampleOracle reqA < (hook.mk cfgHalf).cfg.ModifyResponseProbability))
          ∧ 0 ≤ probValue sampleOracle reqA ∧ probValue sampleOracle reqA < 1
          ∧ ((hook.mk cfgHalf).cfg.ModifyResponseProbability = 1 →
              (((hook.mk cfgHalf).HandleAnnounce sampleOracle (0 : Nat) reqA respA)).2.1 ≠ respA)) :=
  ⟨sampleOracle_bounded, by norm_num [checkConfig, cfgHalf],
    C1_modifies_iff sampleOracle sampleOracle_bounded (hook.mk cfgHalf)
      (by norm_num [checkConfig, cfgHalf]) (0 : Nat) reqA respA⟩

/-- Claim C2: under a valid configuration with `MaxIncreaseDelta = N`, a
modifying `HandleAnnounce` adds exactly `(deltaDraw + 1)` whole seconds to
`Interval`, and that delta lies in `{1, ..., N}`; with `N = 1` it is exactly
one second. -/
theorem C2_delta_bounds (R : RandomOracle) (hR : IntnBounded R) (h : hook)
    (hcfg : checkConfig h.cfg = none) {Ctx : Type} (ctx : Ctx)
    (req : AnnounceRequest) (resp : AnnounceResponse)
    (hm : Modifies R h req) :
    (h.HandleAnnounce R ctx req resp).2.1.Interval =
        resp.Interval + (deltaDraw R req h.cfg.MaxIncreaseDelta + 1) * second
      ∧ 1 ≤ deltaDraw R req h.cfg.MaxIncreaseDelta + 1
      ∧ deltaDraw R req h.cfg.MaxIncreaseDelta + 1 ≤ h.cfg.MaxIncreaseDelta
      ∧ (h.cfg.MaxIncreaseDelta = 1 → deltaDraw R req h.cfg.MaxIncreaseDelta + 1 = 1) := by
  obtain ⟨-, -, hd0⟩ := (checkConfig_none_iff h.cfg).1 hcfg
  obtain ⟨hdl, hdu⟩ := hR (probDraw R req).2 h.cfg.MaxIncreaseDelta hd0
  have hdl' : 0 ≤ deltaDraw R req h.cfg.MaxIncreaseDelta := hdl
  have hdu' : deltaDraw R req h.cfg.MaxIncreaseDelta < h.cfg.MaxIncreaseDelta := hdu
  refine ⟨?_, by omega, by omega, by omega⟩
  rw [hook.handleAnnounce_eq, if_pos hm]

/-- Claim C2 witness: with the sample oracle, probability 1/2 and max delta
5, the applied delta is 3 seconds, within `{1, ..., 5}`. -/
theorem C2_witness :
    IntnBounded sampleOracle
      ∧ checkConfig (hook.mk cfgHalf).cfg = none
      ∧ Modifies sampleOracle (hook.mk cfgHalf) reqA
      ∧ (((hook.mk cfgHalf).HandleAnnounce sampleOracle (0 : Nat) reqA respA).2.1.Interval =
            respA.Interval +
              (deltaDraw sampleOracle reqA (hook.mk cfgHalf).cfg.MaxIncreaseDelta + 1) * second
          ∧ 1 ≤ deltaDraw sampleOracle reqA (hook.mk cfgHalf).cfg.MaxIncreaseDelta + 1
          ∧ deltaDraw sampleOracle reqA (hook.mk cfgHalf).cfg.MaxIncreaseDelta + 1 ≤
              (hook.mk cfgHalf).cfg.MaxIncreaseDelta
          ∧ ((hook.mk cfgHalf).cfg.MaxIncreaseDelta = 1 →
              deltaDraw sampleOracle reqA (hook.mk cfgHalf).cfg.MaxIncreaseDelta + 1 = 1)) :=
  ⟨sampleOracle_bounded, by norm_num [checkConfig, cfgHalf],
    Or.inr (by norm_num [Modifies, probValue, probDraw, sampleOracle, reqA, cfgHalf]),
    C2_delta_bounds sampleOracle sampleOracle_bounded (hook.mk cfgHalf)
      (by norm_num [checkConfig, cfgHalf]) (0 : Nat) reqA respA
      (Or.inr (by norm_num [Modifies, probValue, probDraw, sampleOracle, reqA, cfgHalf]))⟩

/-- Claim C3: the delta draw consumes the seed pair advanced by the
probability draw (which is performed for every request, also at probability
1 where the comparison is bypassed): any modifying hook applies the delta
drawn from `(intn (derive req) 2^24).2`, so two hooks with the same
`MaxIncreaseDelta` that both modify apply the identical delta, whatever
their probabilities. -/
theorem C3_delta_independent_of_probability (R : RandomOracle)
    (h₁ h₂ : hook) {Ctx : Type} (ctx : Ctx)
    (req : AnnounceRequest) (resp : AnnounceResponse)
    (hN : h₁.cfg.MaxIncreaseDelta = h₂.cfg.MaxIncreaseDelta)
    (hm₁ : Modifies R h₁ req) (hm₂ : Modifies R h₂ req) :
    ((h₁.HandleAnnounce R ctx req resp).2.1.Interval =
        resp.Interval +
          ((R.intn (R.intn (R.deriveEntropyFromRequest req) (2 ^ 24)).2
              h₁.cfg.MaxIncreaseDelta).1 + 1) * second)
      ∧ (h₁.HandleAnnounce R ctx req resp).2.1.Interval - resp.Interval =
          (h₂.HandleAnnounce R ctx req resp).2.1.Interval - resp.Interval := by
  have e₁ : (h₁.HandleAnnounce R ctx req resp).2.1.Interval =
      resp.Interval + (deltaDraw R req h₁.cfg.MaxIncreaseDelta + 1) * second := by
    rw [hook.handleAnnounce_eq, if_pos hm₁]
  have e₂ : (h₂.HandleAnnounce R ctx req resp).2.1.Interval =
      resp.Interval + (deltaDraw R req h₂.cfg.MaxIncreaseDelta + 1) * second := by
    rw [hook.handleAnnounce_eq, if_pos hm₂]
  refine ⟨e₁, ?_⟩
  rw [e₁, e₂, hN]

/-- Claim C3 witness: hooks with probabilities 1/2 and 1 and the same max
delta 5 apply the identical delta to the sample request. -/
theorem C3_witness :
    (hook.mk cfgHalf).cfg.MaxIncreaseDelta = (hook.mk cfgOne).cfg.MaxIncreaseDelta
      ∧ Modifies sampleOracle (hook.mk cfgHalf) reqA
      ∧ Modifies sampleOracle (hook.mk cfgOne) reqA
      ∧ ((((hook.mk cfgHalf).HandleAnnounce sampleOracle (0 : Nat) reqA respA).2.1.Interval =
            respA.Interval +
              ((sampleOracle.intn
                  (sampleOracle.intn (sampleOracle.deriveEntropyFromRequest reqA) (2 ^ 24)).2
                  (hook.mk cfgHalf).cfg.MaxIncreaseDelta).1 + 1) * second)
          ∧ ((hook.mk cfgHalf).HandleAnnounce sampleOracle (0 : Nat) reqA respA).2.1.Interval -
                respA.Interval =
              ((hook.mk cfgOne).HandleAnnounce sampleOracle (0 : Nat) reqA respA).2.1.Interval -
                respA.Interval) :=
  ⟨rfl,
    Or.inr (by norm_num [Modifies, probValue, probDraw, sampleOracle, reqA, cfgHalf]),
    Or.inl rfl,
    C3_delta_independent_of_probability sampleOracle (hook.mk cfgHalf) (hook.mk cfgOne)
      (0 : Nat) reqA respA rfl
      (Or.inr (by norm_num [Modifies, probValue, probDraw, sampleOracle, reqA, cfgHalf]))
      (Or.inl rfl)⟩

/-- Claim C7: on a modified exchange with `ModifyMinInterval` set,
`MinInterval` is increased by exactly the delta applied to `Interval`; with
`ModifyMinInterval` unset, `MinInterval` is never changed, modified exchange
or not. -/
theorem C7_minInterval_coupling (R : RandomOracle) (h : hook) {Ctx : Type}
    (ctx : Ctx) (req : AnnounceRequest) (resp : AnnounceResponse) :
    (h.cfg.ModifyMinInterval = true → Modifies R h req →
        (h.HandleAnnounce R ctx req resp).2.1.MinInterval - resp.MinInterval =
          (h.HandleAnnounce R ctx req resp).2.1.Interval - resp.Interval)
      ∧ (h.cfg.ModifyMinInterval = false →
          (h.HandleAnnounce R ctx req resp).2.1.MinInterval = resp.MinInterval) := by
  constructor
  · intro hmin hm
    rw [hook.handleAnnounce_eq, if_pos hm]
    simp only [hmin, if_pos]
    rw [add_sub_cancel_left, add_sub_cancel_left]
  · intro hmin
    by_cases hm : Modifies R h req
    · rw [hook.handleAnnounce_eq, if_pos hm]
      simp [hmin]
    · rw [hook.handleAnnounce_eq, if_neg hm]

/-- Claim C7 witness: with `ModifyMinInterval` set (probability 1/2 sample
configuration) the coupling holds at the sample request and response. -/
theorem C7_witness :
    ((hook.mk cfgHalf).cfg.ModifyMinInterval = true →
        Modifies sampleOracle (hook.mk cfgHalf) reqA →
        (((hook.mk cfgHalf).HandleAnnounce sampleOracle (0 : Nat) reqA respA)).2.1.MinInterval -
            respA.MinInterval =
          (((hook.mk cfgHalf).HandleAnnounce sampleOracle (0 : Nat) reqA respA)).2.1.Interval -
            respA.Interval)
      ∧ ((hook.mk cfgHalf).cfg.ModifyMinInterval = false →
          (((hook.mk cfgHalf).HandleAnnounce sampleOracle (0 : Nat) reqA respA)).2.1.MinInterval =
            respA.MinInterval) :=
  C7_minInterval_coupling sampleOracle (hook.mk cfgHalf) (0 : Nat) reqA respA

/-- Claim C8: `HandleAnnounce` is deterministic per request: with the
entropy derivation a pure function of the identifying fields, two requests
agreeing on those fields produce the identical decision, delta and output,
for any fixed configuration. -/
theorem C8_deterministic_per_request (R : RandomOracle) (hD : DeriveIdentifying R)
    (h : hook) {Ctx : Type} (ctx : Ctx) (req₁ req₂ : AnnounceRequest)
    (resp : AnnounceResponse)
    (hih : req₁.InfoHash = req₂.InfoHash) (hpid : req₁.PeerID = req₂.PeerID) :
    h.HandleAnnounce R ctx req₁ resp = h.HandleAnnounce R ctx req₂ resp := by
  have hde := hD req₁ req₂ hih hpid
  unfold hook.HandleAnnounce
  rw [hde]

/-- Claim C8 witness: two sample requests sharing identifying fields but
differing in per-exchange data produce identical outcomes. -/
theorem C8_witness :
    DeriveIdentifying sampleOracle
      ∧ reqA.InfoHash = reqB.InfoHash
      ∧ reqA.PeerID = reqB.PeerID
      ∧ (hook.mk cfgHalf).HandleAnnounce sampleOracle (0 : Nat) reqA respA =
          (hook.mk cfgHalf).HandleAnnounce sampleOracle (0 : Nat) reqB respA :=
  ⟨sampleOracle_identifying, rfl, rfl,
    C8_deterministic_per_request sampleOracle sampleOracle_identifying (hook.mk cfgHalf)
      (0 : Nat) reqA reqB respA rfl rfl⟩

end Varinterval
